import Mathlib

/-!
Verification of the document-to-questions generation pipeline of the
Course-Management-System backend (`backend/routers/assignments.py`).

The Python source is shallowly embedded: text is `List Char` (one entry per
character, matching Python string indexing), question collections are Lean
lists, floating point vectors are modelled over `ℝ`, the process-wide
circuit-breaker flag is threaded explicitly, and each network interaction is
modelled by a parameter describing what the network returned (the value an
`await` would have produced).  Fallible Python code is modelled with
`Option`/`Except`; a `while` loop whose termination is in question is given
a fuel parameter, with `none` meaning the fuel ran out.
-/

set_option autoImplicit false

namespace CMS

/-- Python slice `l[a:b]` for `0 ≤ a ≤ b` (the only regime the pipeline uses). -/
def pySlice (l : List Char) (a b : Nat) : List Char :=
  (l.take b).drop a

/-- The last `n` elements of a list (`l[-n:]` for `0 < n ≤ len(l)`). -/
def takeRight (n : Nat) (l : List Char) : List Char :=
  l.drop (l.length - n)

/-! ### Quota planner (`generate_questions_from_pdf`, lines 182-208)

`questions_per_type = max(1, num_questions // len(normalized_types))`,
`remaining = num_questions % len(normalized_types)`; then the per-type loop
takes `questions_to_generate = questions_per_type`, adding one while
`remaining > 0` (decrementing `remaining`). -/

/-- The per-type loop body: each type receives `base` questions, plus one
while `remaining > 0`. -/
def quotaAux (base : Nat) : Nat → List String → List Nat
  | _, [] => []
  | remaining, _ :: rest =>
    if remaining > 0 then (base + 1) :: quotaAux base (remaining - 1) rest
    else base :: quotaAux base 0 rest

/-- Quotas assigned to `types` when `num_questions` total are requested:
`base = max(1, num_questions // len(types))`, `remainder = num_questions % len(types)`,
the first `remainder` types receive `base + 1`. -/
def computeQuotas (num_questions : Nat) (types : List String) : List Nat :=
  quotaAux (max 1 (num_questions / types.length)) (num_questions % types.length) types

/-! ### Chunker (`chunk_text`, lines 1000-1023)

```
if len(text) <= chunk_size: return [text]
chunks = []; start = 0
while start < len(text):
    end = min(start + chunk_size, len(text))
    chunks.append(text[start:end])
    if end >= len(text): break
    start = end - overlap
```

The `while` loop is embedded with fuel (`none` = the fuel ran out, i.e. the
loop has not finished within that many iterations).  The model covers
`overlap ≤ chunk_size`, where `end - overlap ≥ start ≥ 0` so Python never
slices with a negative index. -/

/-- One fuel-metered run of the `while` loop of `chunk_text`, starting from
position `start` with the chunks accumulated so far. -/
def chunkLoop (text : List Char) (chunk_size overlap : Nat) :
    Nat → Nat → List (List Char) → Option (List (List Char))
  | 0, _, _ => none
  | fuel + 1, start, chunks =>
    if start < text.length then
      let e := min (start + chunk_size) text.length
      let chunks2 := chunks ++ [pySlice text start e]
      if text.length ≤ e then some chunks2
      else chunkLoop text chunk_size overlap fuel (e - overlap) chunks2
    else some chunks

/-- `chunk_text(text, chunk_size, overlap)`; `some` is the returned list,
`none` means the loop did not terminate within `len(text) + 1` iterations
(each iteration that continues strictly advances `start` when
`overlap < chunk_size`, so for those arguments this fuel always suffices). -/
def chunk_text (text : List Char) (chunk_size overlap : Nat) :
    Option (List (List Char)) :=
  if text.length ≤ chunk_size then some [text]
  else chunkLoop text chunk_size overlap (text.length + 1) 0 []

/-- Specification-side closed form of the chunk sequence produced from
position `start` when `overlap < chunk_size`: used to reason about
`chunkLoop` by well-founded recursion on the remaining text. -/
def chunksFrom (text : List Char) (chunk_size overlap start : Nat) :
    List (List Char) :=
  if _h : overlap < chunk_size ∧ start < text.length then
    if text.length ≤ start + chunk_size then [text.drop start]
    else pySlice text start (start + chunk_size) ::
      chunksFrom text chunk_size overlap (start + chunk_size - overlap)
  else []
termination_by text.length - start
decreasing_by
  simp only [not_le] at *
  omega

/-! ### Slice lemmas -/

theorem pySlice_length (l : List Char) (a b : Nat) :
    (pySlice l a b).length = min b l.length - a := by
  simp [pySlice]

theorem pySlice_take (l : List Char) (a b k : Nat) :
    (pySlice l a b).take k = pySlice l a (min (a + k) b) := by
  simp only [pySlice, List.take_drop, List.take_take]

theorem pySlice_drop (l : List Char) (a b k : Nat) :
    (pySlice l a b).drop k = pySlice l (a + k) b := by
  simp only [pySlice, List.drop_drop]

theorem pySlice_append_drop (l : List Char) (a b : Nat)
    (hab : a ≤ b) (hal : a ≤ l.length) :
    pySlice l a b ++ l.drop b = l.drop a := by
  conv_rhs => rw [← List.take_append_drop b l]
  rw [List.drop_append_of_le_length
    (show a ≤ (l.take b).length by simp [List.length_take]; omega)]
  rfl

theorem pySlice_zero (l : List Char) (b : Nat) : pySlice l 0 b = l.take b := by
  simp [pySlice]

theorem pySlice_to_length (l : List Char) (a : Nat) :
    pySlice l a l.length = l.drop a := by
  simp [pySlice]

/-! ### Chunker lemmas -/

/-- The fuel-metered `while` loop of `chunk_text` computes `chunksFrom`:
  with `overlap < chunk_size` the loop terminates within `len - start`
  iterations and appends exactly the closed-form chunk sequence. -/
theorem chunkLoop_eq_chunksFrom (text : List Char) (cs ov : Nat) (hov : ov < cs) :
    ∀ fuel start acc, start < text.length → text.length - start < fuel →
      chunkLoop text cs ov fuel start acc =
        some (acc ++ chunksFrom text cs ov start) := by
  intro fuel
  induction fuel with
  | zero => intro start acc _ hfuel; omega
  | succ fuel ih =>
    intro start acc hstart hfuel
    rw [chunksFrom]
    rw [dif_pos ⟨hov, hstart⟩]
    simp only [chunkLoop, if_pos hstart]
    by_cases hend : text.length ≤ start + cs
    · have he : min (start + cs) text.length = text.length := by omega
      rw [if_pos hend, he, if_pos (le_refl _), pySlice_to_length]
    · have he : min (start + cs) text.length = start + cs := by omega
      rw [if_neg hend, he, if_neg (by omega : ¬ text.length ≤ start + cs)]
      rw [ih (start + cs - ov) (acc ++ [pySlice text start (start + cs)])
        (by omega) (by omega)]
      simp

/-- For `overlap < chunk_size < len(text)`, `chunk_text` terminates and
returns the closed-form chunk sequence starting at position 0. -/
theorem chunk_text_eq_chunksFrom (text : List Char) (cs ov : Nat)
    (h1 : cs < text.length) (h2 : ov < cs) :
    chunk_text text cs ov = some (chunksFrom text cs ov 0) := by
  rw [chunk_text, if_neg (by omega)]
  rw [chunkLoop_eq_chunksFrom text cs ov h2 (text.length + 1) 0 [] (by omega) (by omega)]
  simp

/-- Every chunk of `chunksFrom` except the last has length exactly
`chunk_size`. -/
theorem chunksFrom_length_eq (text : List Char) (cs ov : Nat) (hov : ov < cs) :
    ∀ n start, text.length - start ≤ n →
      ∀ i, i + 1 < (chunksFrom text cs ov start).length →
        ((chunksFrom text cs ov start).getD i []).length = cs := by
  intro n
  induction n with
  | zero =>
    intro start hn i hi
    rw [chunksFrom, dif_neg (by omega)] at hi
    simp at hi
  | succ n ih =>
    intro start hn i hi
    by_cases hs : start < text.length
    · rw [chunksFrom, dif_pos ⟨hov, hs⟩] at hi ⊢
      by_cases hend : text.length ≤ start + cs
      · rw [if_pos hend] at hi
        simp at hi
      · rw [if_neg hend] at hi ⊢
        cases i with
        | zero =>
          rw [List.getD_cons_zero, pySlice_length]
          omega
        | succ j =>
          rw [List.getD_cons_succ]
          exact ih (start + cs - ov) (by omega) j (by simpa using hi)
    · rw [chunksFrom, dif_neg (by omega)] at hi
      simp at hi

/-- The first chunk of `chunksFrom` is the window starting at `start`. -/
theorem chunksFrom_head (text : List Char) (cs ov start : Nat)
    (hov : ov < cs) (hs : start < text.length) :
    (chunksFrom text cs ov start).getD 0 [] =
      pySlice text start (min (start + cs) text.length) := by
  rw [chunksFrom, dif_pos ⟨hov, hs⟩]
  by_cases hend : text.length ≤ start + cs
  · rw [if_pos hend]
    have : min (start + cs) text.length = text.length := by omega
    rw [this, pySlice_to_length, List.getD_cons_zero]
  · rw [if_neg hend]
    have : min (start + cs) text.length = start + cs := by omega
    rw [this, List.getD_cons_zero]

/-- Consecutive chunks of `chunksFrom` overlap by exactly `overlap`
characters: the last `overlap` characters of chunk `i` are the first
`overlap` characters of chunk `i + 1`. -/
theorem chunksFrom_overlap (text : List Char) (cs ov : Nat) (hov : ov < cs) :
    ∀ n start, text.length - start ≤ n →
      ∀ i, i + 1 < (chunksFrom text cs ov start).length →
        takeRight ov ((chunksFrom text cs ov start).getD i []) =
          ((chunksFrom text cs ov start).getD (i + 1) []).take ov := by
  intro n
  induction n with
  | zero =>
    intro start hn i hi
    rw [chunksFrom, dif_neg (by omega)] at hi
    simp at hi
  | succ n ih =>
    intro start hn i hi
    by_cases hs : start < text.length
    · rw [chunksFrom, dif_pos ⟨hov, hs⟩] at hi ⊢
      by_cases hend : text.length ≤ start + cs
      · rw [if_pos hend] at hi
        simp at hi
      · rw [if_neg hend] at hi ⊢
        cases i with
        | zero =>
          rw [List.getD_cons_zero, List.getD_cons_succ]
          have hlt : start + cs < text.length := by omega
          rw [chunksFrom_head text cs ov (start + cs - ov) hov (by omega)]
          rw [takeRight, pySlice_length, pySlice_drop, pySlice_take]
          have e1 : start + (min (start + cs) text.length - start - ov) =
              start + cs - ov := by omega
          have e2 : min (start + cs - ov + ov)
              (min (start + cs - ov + cs) text.length) = start + cs := by omega
          rw [e1, e2]
        | succ j =>
          rw [List.getD_cons_succ, List.getD_cons_succ]
          exact ih (start + cs - ov) (by omega) j (by simpa using hi)
    · rw [chunksFrom, dif_neg (by omega)] at hi
      simp at hi

/-- Dropping the first `overlap` characters of every chunk and concatenating
yields the text from position `start + overlap` on. -/
theorem chunksFrom_drop_flatten (text : List Char) (cs ov : Nat) (hov : ov < cs) :
    ∀ n start, text.length - start ≤ n →
      ((chunksFrom text cs ov start).map (fun c => c.drop ov)).flatten =
        text.drop (start + ov) := by
  intro n
  induction n with
  | zero =>
    intro start hn
    rw [chunksFrom, dif_neg (by omega)]
    simp
    omega
  | succ n ih =>
    intro start hn
    by_cases hs : start < text.length
    · rw [chunksFrom, dif_pos ⟨hov, hs⟩]
      by_cases hend : text.length ≤ start + cs
      · rw [if_pos hend]
        simp [List.drop_drop]
      · rw [if_neg hend]
        simp only [List.map_cons, List.flatten_cons]
        rw [ih (start + cs - ov) (by omega)]
        rw [pySlice_drop]
        have e1 : start + cs - ov + ov = start + cs := by omega
        rw [e1]
        exact pySlice_append_drop text (start + ov) (start + cs) (by omega) (by omega)
    · rw [chunksFrom, dif_neg (by omega)]
      simp
      omega

/-! ## Claim theorems: quota planner and chunker -/

/-- C9: quota planning with `total = 10` over the three types
`mcq, truefalse, shortanswer` yields the quotas `[4, 3, 3]` (base 3,
remainder 1 going to the first-listed type), and the requested counts
sum to 10. -/
theorem c9_quotas_total_ten :
    computeQuotas 10 ["mcq", "truefalse", "shortanswer"] = [4, 3, 3] ∧
    (computeQuotas 10 ["mcq", "truefalse", "shortanswer"]).sum = 10 := by
  decide

/-- C1 counterexample: quota planning with `total = 2` over the three types
does NOT yield `[1, 1, 1]` with sum 3; with `base = max(1, 2 // 3) = 1` and
`remainder = 2 % 3 = 2` the first two types receive `base + 1`, so the code
produces `[2, 2, 1]` with sum 5. -/
theorem c1_counterexample :
    computeQuotas 2 ["mcq", "truefalse", "shortanswer"] ≠ [1, 1, 1] ∧
    (computeQuotas 2 ["mcq", "truefalse", "shortanswer"]).sum ≠ 3 := by
  decide

/-- C1 (amended): quota planning with `total = 2` over the three types
`mcq, truefalse, shortanswer` yields the quotas `[2, 2, 1]` (base 1,
remainder 2, so the first two listed types receive one extra); every type
still receives at least one question, and the requested counts sum to 5,
exceeding the nominal total by design. -/
theorem c1_quotas_total_two :
    computeQuotas 2 ["mcq", "truefalse", "shortanswer"] = [2, 2, 1] ∧
    (∀ q ∈ computeQuotas 2 ["mcq", "truefalse", "shortanswer"], 1 ≤ q) ∧
    (computeQuotas 2 ["mcq", "truefalse", "shortanswer"]).sum = 5 := by
  decide

/-- C3 counterexample: the round-trip law as stated fails.  For
`text = "abcde"`, `chunk_size = 3`, `overlap = 1` the chunks are
`["abc", "cde"]`; concatenating each chunk's suffix of length
`chunk_size - overlap = 2` gives `"bcde"`, which is not the text (the first
`chunk_size - overlap` characters are lost). -/
theorem c3_counterexample :
    chunk_text "abcde".toList 3 1 = some ["abc".toList, "cde".toList] ∧
    (["abc".toList, "cde".toList].map (takeRight 2)).flatten ≠
      "abcde".toList := by
  decide

/-- C3 (amended): for every text with `len(text) > chunk_size` and every
`overlap < chunk_size`, every chunk except the last has length exactly
`chunk_size`, consecutive chunks overlap by exactly `overlap` characters,
and the FIRST chunk followed by every later chunk with its first `overlap`
characters removed reconstructs the text losslessly. -/
theorem c3_chunk_invariants (text : List Char) (cs ov : Nat)
    (h1 : cs < text.length) (h2 : ov < cs) :
    ∃ cks, chunk_text text cs ov = some cks ∧
      (∀ i, i + 1 < cks.length → (cks.getD i []).length = cs) ∧
      (∀ i, i + 1 < cks.length →
        takeRight ov (cks.getD i []) = (cks.getD (i + 1) []).take ov) ∧
      cks ≠ [] ∧
      cks.headI ++ (cks.tail.map (fun c => c.drop ov)).flatten = text := by
  refine ⟨chunksFrom text cs ov 0, chunk_text_eq_chunksFrom text cs ov h1 h2,
    fun i hi => chunksFrom_length_eq text cs ov h2 text.length 0 (by omega) i hi,
    fun i hi => chunksFrom_overlap text cs ov h2 text.length 0 (by omega) i hi,
    ?_, ?_⟩
  · rw [chunksFrom, dif_pos ⟨h2, by omega⟩, if_neg (by omega)]
    simp
  · rw [chunksFrom, dif_pos ⟨h2, by omega⟩, if_neg (by omega)]
    rw [List.headI_cons, List.tail_cons]
    simp only [Nat.zero_add]
    rw [chunksFrom_drop_flatten text cs ov h2 text.length (cs - ov) (by omega)]
    have e1 : cs - ov + ov = cs := by omega
    rw [e1, pySlice_zero]
    exact List.take_append_drop cs text

/-- Witness for C3 at `text = "abcde"`, `chunk_size = 3`, `overlap = 1`. -/
theorem c3_chunk_invariants_witness :
    (3 < "abcde".toList.length ∧ 1 < 3) ∧
    (∃ cks, chunk_text "abcde".toList 3 1 = some cks ∧
      (∀ i, i + 1 < cks.length → (cks.getD i []).length = 3) ∧
      (∀ i, i + 1 < cks.length →
        takeRight 1 (cks.getD i []) = (cks.getD (i + 1) []).take 1) ∧
      cks ≠ [] ∧
      cks.headI ++ (cks.tail.map (fun c => c.drop 1)).flatten =
        "abcde".toList) :=
  ⟨⟨by decide, by decide⟩,
    c3_chunk_invariants "abcde".toList 3 1 (by decide) (by decide)⟩

/-- C5 (code bug): the code has NO explicit guard rejecting
`overlap ≥ chunk_size`.  A call with `overlap = 5 ≥ chunk_size = 1` on a
short text is accepted and returns normally, and a call with
`overlap = chunk_size = 1` on a longer text makes the `while` loop run
forever (`start` is reset to the same position each iteration), so no fuel
ever suffices.  (For `overlap < chunk_size` the loop does terminate with the
final window emitted exactly once: see `c3_chunk_invariants` /
`chunk_text_eq_chunksFrom`.) -/
theorem c5_missing_overlap_guard :
    chunk_text ['a'] 1 5 = some [['a']] ∧
    (∀ (fuel : Nat) (acc : List (List Char)),
      chunkLoop ['a', 'b'] 1 1 fuel 0 acc = none) := by
  refine ⟨by decide, ?_⟩
  intro fuel
  induction fuel with
  | zero => intro acc; rfl
  | succ fuel ih =>
    intro acc
    simp only [chunkLoop]
    norm_num
    exact ih _

/-! ### Embedding client and circuit breaker (`get_embedding`, lines 1026-1059)

The process-wide flag `_embeddings_api_failed` is threaded explicitly.  The
single network interaction of one call is modelled by an `EmbedResponse`
value: the HTTP reply (status code plus the optional `embedding` payload
field) or an exception (connect failure, timeout, bad JSON, ...). -/

/-- What the HTTP POST to the embedding endpoint produced. -/
inductive EmbedResponse
  | response (statusCode : Nat) (embedding : Option (List ℝ))
  | exn (msg : String)

/-- `get_embedding`: given the current `_embeddings_api_failed` flag and the
network outcome, returns `(new flag, whether a network call was attempted,
returned vector)`.  On a 200 reply it returns `result.get("embedding", [])`
and leaves the flag unchanged; on any other status or any exception it sets
the flag and returns `[]`; if the flag is already set it returns `[]`
immediately without a network call. -/
def get_embedding (failed : Bool) (resp : EmbedResponse) :
    Bool × Bool × List ℝ :=
  if failed then (failed, false, [])
  else match resp with
    | .response code payload =>
      if code = 200 then (failed, true, payload.getD [])
      else (true, true, [])
    | .exn _ => (true, true, [])

/-- A call outcome that the code treats as a failure: a non-200 status or
any exception. -/
def embedCallFails : EmbedResponse → Bool
  | .response code _ => !(code == 200)
  | .exn _ => true

/-- The flag after a whole sequence of embed calls with the given network
outcomes. -/
def embedFlagAfter : Bool → List EmbedResponse → Bool
  | f, [] => f
  | f, r :: rs => embedFlagAfter (get_embedding f r).1 rs

/-- C4: the embedding circuit breaker is a monotone process-wide latch:
a failing call (non-200 or exception) sets the shared flag; once true the
flag survives every later call unchanged; and with the flag set every call
returns the empty vector immediately without attempting a network call. -/
theorem c4_breaker_monotone_latch (r : EmbedResponse)
    (rs : List EmbedResponse) (hfail : embedCallFails r = true) :
    (get_embedding false r).1 = true ∧
    embedFlagAfter true rs = true ∧
    (∀ r2, get_embedding true r2 = (true, false, [])) := by
  refine ⟨?_, ?_, fun r2 => rfl⟩
  · cases r with
    | response code payload =>
      simp only [embedCallFails, bne_iff_ne, ne_eq, Bool.not_eq_true',
        beq_eq_false_iff_ne] at hfail
      simp [get_embedding, hfail]
    | exn m => rfl
  · induction rs with
    | nil => rfl
    | cons r2 rs2 ih => exact ih

/-- Witness for C4: an exception (e.g. a timeout) trips the breaker; a
subsequent successful-looking network outcome cannot reset it. -/
theorem c4_breaker_monotone_latch_witness :
    embedCallFails (.exn "connection timeout") = true ∧
    ((get_embedding false (.exn "connection timeout")).1 = true ∧
     embedFlagAfter true [.response 200 (some [(1 : ℝ)])] = true ∧
     (∀ r2, get_embedding true r2 = (true, false, []))) :=
  ⟨rfl, c4_breaker_monotone_latch _ _ rfl⟩

/-! ### Cosine similarity (`cosine_similarity`, lines 1062-1076)

Floats are modelled as reals; the two guards of the code are kept in order.
The code computes the dot product before testing the magnitudes, but all
operations are pure, so hoisting the magnitude test above the division
changes nothing observable. -/

noncomputable def cosine_similarity (v1 v2 : List ℝ) : ℝ :=
  if v1 = [] ∨ v2 = [] ∨ v1.length ≠ v2.length then 0
  else if Real.sqrt ((v1.map fun a => a * a).sum) = 0 ∨
      Real.sqrt ((v2.map fun a => a * a).sum) = 0 then 0
  else ((v1.zip v2).map fun p => p.1 * p.2).sum /
    (Real.sqrt ((v1.map fun a => a * a).sum) *
     Real.sqrt ((v2.map fun a => a * a).sum))

/-- C6: for every degenerate pair of vectors — either vector empty, the
lengths unequal, or either magnitude zero — `cosine_similarity` returns
exactly `0.0`; no division is ever reached (over `ℝ` there is no NaN, so
the claim reduces to the result being exactly zero). -/
theorem c6_cosine_degenerate_zero (v1 v2 : List ℝ)
    (h : v1 = [] ∨ v2 = [] ∨ v1.length ≠ v2.length ∨
      Real.sqrt ((v1.map fun a => a * a).sum) = 0 ∨
      Real.sqrt ((v2.map fun a => a * a).sum) = 0) :
    cosine_similarity v1 v2 = 0 := by
  unfold cosine_similarity
  by_cases h1 : v1 = [] ∨ v2 = [] ∨ v1.length ≠ v2.length
  · rw [if_pos h1]
  · rw [if_neg h1]
    have h2 : Real.sqrt ((v1.map fun a => a * a).sum) = 0 ∨
        Real.sqrt ((v2.map fun a => a * a).sum) = 0 := by
      rcases h with h | h | h | h | h
      · exact absurd (Or.inl h) h1
      · exact absurd (Or.inr (Or.inl h)) h1
      · exact absurd (Or.inr (Or.inr h)) h1
      · exact Or.inl h
      · exact Or.inr h
    rw [if_pos h2]

/-- Witness for C6 at the zero-magnitude pair `v1 = [0]`, `v2 = [1]`. -/
theorem c6_cosine_degenerate_zero_witness :
    (([(0 : ℝ)] : List ℝ) = [] ∨ ([(1 : ℝ)] : List ℝ) = [] ∨
      ([(0 : ℝ)] : List ℝ).length ≠ ([(1 : ℝ)] : List ℝ).length ∨
      Real.sqrt ((([(0 : ℝ)] : List ℝ).map fun a => a * a).sum) = 0 ∨
      Real.sqrt ((([(1 : ℝ)] : List ℝ).map fun a => a * a).sum) = 0) ∧
    cosine_similarity [(0 : ℝ)] [(1 : ℝ)] = 0 :=
  ⟨Or.inr (Or.inr (Or.inr (Or.inl (by simp)))),
    c6_cosine_degenerate_zero _ _ (Or.inr (Or.inr (Or.inr (Or.inl (by simp)))))⟩

/-! ### Relevance selector (`retrieve_relevant_chunks`, lines 1079-1124)

The embedding calls are modelled by an oracle `embed` giving the vector each
`await get_embedding(...)` returned.  Python's stable `sort(reverse=True,
key=first component)` is modelled by a stable insertion sort that moves an
element left past exactly the strictly smaller keys. -/

/-- Stable descending insertion for `(similarity, index, chunk)` triples. -/
noncomputable def insertByScore (x : ℝ × Nat × String) :
    List (ℝ × Nat × String) → List (ℝ × Nat × String)
  | [] => [x]
  | y :: ys => if y.1 < x.1 then x :: y :: ys else y :: insertByScore x ys

/-- Stable descending sort by similarity score. -/
noncomputable def sortByScoreDesc :
    List (ℝ × Nat × String) → List (ℝ × Nat × String)
  | [] => []
  | x :: xs => insertByScore x (sortByScoreDesc xs)

/-- `retrieve_relevant_chunks(chunks, query, top_k)` with the embedding
calls replaced by the oracle `embed`.  An empty query embedding takes the
fallback path: all chunks if `len(chunks) <= top_k`, else the evenly spaced
sample `chunks[i * step]` for `i in range(top_k)`, `step = len(chunks) //
top_k` (`getD _ ""` models the always-in-bounds Python indexing).  Otherwise
each chunk is embedded, scored by cosine similarity against the query
(score `0.0` when its embedding came back empty), sorted descending by
score, and the first `top_k` chunks are returned. -/
noncomputable def retrieve_relevant_chunks (embed : String → List ℝ)
    (chunks : List String) (query : String) (top_k : Nat) : List String :=
  if embed query = [] then
    if chunks.length ≤ top_k then chunks
    else (List.range top_k).map
      (fun i => chunks.getD (i * (chunks.length / top_k)) "")
  else
    let similarities := chunks.enum.map (fun p =>
      (if embed p.2 ≠ [] then cosine_similarity (embed query) (embed p.2)
       else 0, p.1, p.2))
    ((sortByScoreDesc similarities).take top_k).map (fun t => t.2.2)

/-- C7: with a non-empty chunk list, `top_k ≥ 1` and an empty query
embedding, the selector takes the fallback path: all chunks unchanged when
`len(chunks) ≤ top_k`; otherwise exactly the `top_k` chunks at indices
`0, step, 2*step, ...` with `step = len(chunks) // top_k ≥ 1`, every index
in bounds and the index sequence strictly increasing (document order is
preserved). -/
theorem c7_fallback_even_sampling (embed : String → List ℝ)
    (chunks : List String) (query : String) (top_k : Nat)
    (_hne : chunks ≠ []) (hk : 1 ≤ top_k) (hq : embed query = []) :
    (chunks.length ≤ top_k →
      retrieve_relevant_chunks embed chunks query top_k = chunks) ∧
    (top_k < chunks.length →
      retrieve_relevant_chunks embed chunks query top_k =
        (List.range top_k).map
          (fun i => chunks.getD (i * (chunks.length / top_k)) "") ∧
      (retrieve_relevant_chunks embed chunks query top_k).length = top_k ∧
      1 ≤ chunks.length / top_k ∧
      (∀ i, i < top_k →
        i * (chunks.length / top_k) < chunks.length) ∧
      (∀ i j, i < j → j < top_k →
        i * (chunks.length / top_k) < j * (chunks.length / top_k))) := by
  constructor
  · intro hle
    rw [retrieve_relevant_chunks, if_pos hq, if_pos hle]
  · intro hlt
    have hfall : retrieve_relevant_chunks embed chunks query top_k =
        (List.range top_k).map
          (fun i => chunks.getD (i * (chunks.length / top_k)) "") := by
      rw [retrieve_relevant_chunks, if_pos hq, if_neg (by omega)]
    have hstep : 1 ≤ chunks.length / top_k :=
      (Nat.one_le_div_iff (by omega)).mpr (by omega)
    have hmul : chunks.length / top_k * top_k ≤ chunks.length :=
      Nat.div_mul_le_self chunks.length top_k
    refine ⟨hfall, by rw [hfall]; simp, hstep, ?_, ?_⟩
    · intro i hi
      have h1 : (i + 1) * (chunks.length / top_k) ≤
          top_k * (chunks.length / top_k) :=
        Nat.mul_le_mul_right _ (by omega)
      have h2 : top_k * (chunks.length / top_k) ≤ chunks.length := by
        rw [Nat.mul_comm]; exact hmul
      have h3 : (i + 1) * (chunks.length / top_k) =
          i * (chunks.length / top_k) + chunks.length / top_k :=
        Nat.succ_mul i (chunks.length / top_k)
      omega
    · intro i j hij hj
      have h1 : (i + 1) * (chunks.length / top_k) ≤
          j * (chunks.length / top_k) :=
        Nat.mul_le_mul_right _ (by omega)
      have h3 : (i + 1) * (chunks.length / top_k) =
          i * (chunks.length / top_k) + chunks.length / top_k :=
        Nat.succ_mul i (chunks.length / top_k)
      omega

/-- Witness for C7 with five chunks, `top_k = 2` and a dead embedding
oracle: the fallback sample is `step = 2`, indices `0, 2`. -/
theorem c7_fallback_even_sampling_witness :
    ((["a", "b", "c", "d", "e"] : List String) ≠ [] ∧ 1 ≤ 2 ∧
      (fun (_ : String) => ([] : List ℝ)) "q" = []) ∧
    ((["a", "b", "c", "d", "e"] : List String).length ≤ 2 →
      retrieve_relevant_chunks (fun _ => []) ["a", "b", "c", "d", "e"] "q" 2 =
        ["a", "b", "c", "d", "e"]) ∧
    (2 < (["a", "b", "c", "d", "e"] : List String).length →
      retrieve_relevant_chunks (fun _ => []) ["a", "b", "c", "d", "e"] "q" 2 =
        (List.range 2).map (fun i =>
          (["a", "b", "c", "d", "e"] : List String).getD
            (i * ((["a", "b", "c", "d", "e"] : List String).length / 2)) "") ∧
      (retrieve_relevant_chunks (fun _ => [])
        ["a", "b", "c", "d", "e"] "q" 2).length = 2 ∧
      1 ≤ (["a", "b", "c", "d", "e"] : List String).length / 2 ∧
      (∀ i, i < 2 →
        i * ((["a", "b", "c", "d", "e"] : List String).length / 2) <
          (["a", "b", "c", "d", "e"] : List String).length) ∧
      (∀ i j, i < j → j < 2 →
        i * ((["a", "b", "c", "d", "e"] : List String).length / 2) <
          j * ((["a", "b", "c", "d", "e"] : List String).length / 2))) :=
  ⟨⟨by decide, by decide, rfl⟩,
    c7_fallback_even_sampling (fun _ => []) ["a", "b", "c", "d", "e"] "q" 2
      (by decide) (by decide) rfl⟩

/-! ### Output parser (`generate_question_batch`, lines 1245-1316)

The regular expressions of the source are realised directly as character
scanners:

* `re.split(r"\n?Q:\s*", text, IGNORECASE)` — `qSplit`;
* `re.search(r"^(.+?)(?=\n[A-D]\))", part, DOTALL | IGNORECASE)` — `mcqQuestion`;
* `re.search(rf"{letter}\)\s*(.+?)(?=\n[A-D]\)|ANSWER:|Q:|$)", part,
  DOTALL | IGNORECASE)` — `findOption`;
* `re.search(r"ANSWER:\s*([A-D])", part, IGNORECASE)` — `mcqAnswer`;
* `re.search(r"^(.+?)(?=ANSWER:|Q:|$)", part, DOTALL | IGNORECASE)` —
  `tfStatement` (used for true/false and short answer);
* `re.search(r"ANSWER:\s*(True|False)", part, IGNORECASE)` — `tfAnswer`;
* `re.search(r"ANSWER:\s*(.+?)(?=Q:|$)", part, DOTALL | IGNORECASE)` —
  `saAnswer`.

Lazy groups take the shortest non-empty match before the first position
where the lookahead holds; the greedy `\s*` backtracks by at most one step,
the un-`MULTILINE` `$` holds at the end of the string and just before a
final newline, and `search` takes the leftmost position where the whole
pattern can match. -/

/-- Python `\s` on the characters that occur in this pipeline. -/
def isWS (c : Char) : Bool :=
  c == ' ' || c == '\n' || c == '\t' || c == '\r' || c == '\x0b' || c == '\x0c'

/-- Python `str.strip()`. -/
def pyStrip (l : List Char) : List Char :=
  ((l.dropWhile isWS).reverse.dropWhile isWS).reverse

/-- Case-insensitive match of pattern `p` against the start of `l`. -/
def matchesCI : List Char → List Char → Bool
  | [], _ => true
  | _ :: _, [] => false
  | p :: ps, c :: cs => (p.toLower == c.toLower) && matchesCI ps cs

/-- Index of the leftmost position of `l` whose suffix satisfies `p`
(the scan a `re.search` performs). -/
def findSub (p : List Char → Bool) : List Char → Option Nat
  | [] => if p [] then some 0 else none
  | c :: t => if p (c :: t) then some 0 else (findSub p t).map (· + 1)

/-- Does `[A-D]\)` (case-insensitive) match here? -/
def optMarkerAt (l : List Char) : Bool :=
  match l with
  | a :: b :: _ =>
    (a.toLower == 'a' || a.toLower == 'b' || a.toLower == 'c' ||
     a.toLower == 'd') && b == ')'
  | _ => false

/-- Does `\n[A-D]\)` match here? -/
def nlOptAt (l : List Char) : Bool :=
  match l with
  | c :: rest => c == '\n' && optMarkerAt rest
  | [] => false

/-- The `$` of a non-`MULTILINE` Python regex: end of string, or just
before a final newline. -/
def dollarAt (l : List Char) : Bool := l == [] || l == ['\n']

/-- The lookahead `(?=\n[A-D]\)|ANSWER:|Q:|$)` bounding an option body. -/
def mcqBoundaryAt (l : List Char) : Bool :=
  nlOptAt l || matchesCI "ANSWER:".toList l || matchesCI "Q:".toList l ||
    dollarAt l

/-- Smallest `t ≥ 1` such that `boundary` holds at `rest.drop t`
(the end position a lazy `(.+?)(?=boundary)` anchored at `rest` takes). -/
def firstBoundaryIdx (boundary : List Char → Bool) (rest : List Char) :
    Option Nat :=
  match rest with
  | [] => none
  | _ :: tail => (findSub boundary tail).map (· + 1)

/-- `\s*(.+?)(?=boundary)` applied at `m`, for a `boundary` that includes
`$`: the greedy `\s*` keeps the largest run that still leaves one character
for the lazy group (backtracking by exactly one step when `m` is all
whitespace), and the lazy group stops at the first boundary position. -/
def lazyCapture (boundary : List Char → Bool) (m : List Char) :
    Option (List Char) :=
  match m with
  | [] => none
  | _ :: _ =>
    let w := min (m.takeWhile isWS).length (m.length - 1)
    (firstBoundaryIdx boundary (m.drop w)).map (fun t => (m.drop w).take t)

/-- The question text of a multiple-choice segment: the shortest non-empty
prefix followed by `\n[A-D])`, stripped (`q_match.group(1).strip()`). -/
def mcqQuestion (part : List Char) : Option (List Char) :=
  match part with
  | [] => none
  | _ :: rest => (findSub nlOptAt rest).map (fun j => pyStrip (part.take (j + 1)))

/-- The body of option `letter`: leftmost `letter\)` having at least one
character after it, then `\s*(.+?)` up to the option/answer/question/end
boundary, stripped. -/
def findOption (letter : Char) (part : List Char) : Option (List Char) :=
  (findSub (fun l =>
      (match l with
       | a :: b :: _ => a.toLower == letter.toLower && b == ')'
       | _ => false) && 2 < l.length) part).bind
    (fun k => (lazyCapture mcqBoundaryAt (part.drop (k + 2))).map pyStrip)

/-- Is the head of `m` one of the letters `A`-`D` (case-insensitive)? -/
def headIsOptLetter (m : List Char) : Bool :=
  match m with
  | c :: _ =>
    c.toLower == 'a' || c.toLower == 'b' || c.toLower == 'c' ||
      c.toLower == 'd'
  | [] => false

/-- `ANSWER:\s*([A-D])` — the single-letter correct option, uppercased
(`ans_match.group(1).upper()`). -/
def mcqAnswer (part : List Char) : Option Char :=
  (findSub (fun l => matchesCI "ANSWER:".toList l &&
      headIsOptLetter ((l.drop 7).dropWhile isWS)) part).map
    (fun k => ((((part.drop k).drop 7).dropWhile isWS).headD 'A').toUpper)

/-- The option dictionary of one segment, walking `A, B, C, D` in order and
keeping the letters whose pattern matched (`options` in the source). -/
def mcqOptions (part : List Char) : List (Char × List Char) :=
  ['A', 'B', 'C', 'D'].filterMap
    (fun letter => (findOption letter part).map (fun v => (letter, v)))

/-- Parse one `Q:`-delimited multiple-choice segment.  A record is produced
only when all four options are present (`len(options) == 4`); the formatted
record is `Question: ...` followed by the four option lines and, when
requested and present, `Correct Answer: X`, then stripped. -/
def parseMCQSegment (include_answers : Bool) (part : List Char) :
    Option (List Char) :=
  match mcqQuestion part with
  | none => none
  | some question_text =>
    let options := mcqOptions part
    if options.length = 4 then
      let base := "Question: ".toList ++ question_text ++ ['\n'] ++
        (options.map (fun e => e.1 :: ')' :: ' ' :: (e.2 ++ ['\n']))).flatten
      let withAns :=
        if include_answers then
          match mcqAnswer part with
          | some c => base ++ "Correct Answer: ".toList ++ [c]
          | none => base
        else base
      some (pyStrip withAns)
    else none

/-- The lookahead `(?=ANSWER:|Q:|$)` bounding a statement. -/
def tfBoundaryAt (l : List Char) : Bool :=
  matchesCI "ANSWER:".toList l || matchesCI "Q:".toList l || dollarAt l

/-- `^(.+?)(?=ANSWER:|Q:|$)` — the statement/question text of a true/false
or short-answer segment, stripped. -/
def tfStatement (part : List Char) : Option (List Char) :=
  (firstBoundaryIdx tfBoundaryAt part).map (fun t => pyStrip (part.take t))

/-- `ANSWER:\s*(True|False)` — capitalised (`group(1).capitalize()`). -/
def tfAnswer (part : List Char) : Option (List Char) :=
  (findSub (fun l => matchesCI "ANSWER:".toList l &&
      (matchesCI "True".toList ((l.drop 7).dropWhile isWS) ||
       matchesCI "False".toList ((l.drop 7).dropWhile isWS))) part).map
    (fun k =>
      if matchesCI "True".toList (((part.drop k).drop 7).dropWhile isWS)
      then "True".toList else "False".toList)

/-- Parse one true/false segment. -/
def parseTFSegment (include_answers : Bool) (part : List Char) :
    Option (List Char) :=
  match tfStatement part with
  | none => none
  | some statement =>
    let base := "Question: ".toList ++ statement
    some (if include_answers then
      match tfAnswer part with
      | some a => base ++ "\nAnswer: ".toList ++ a
      | none => base
    else base)

/-- The lookahead `(?=Q:|$)` bounding a free-text answer. -/
def saBoundaryAt (l : List Char) : Bool :=
  matchesCI "Q:".toList l || dollarAt l

/-- `ANSWER:\s*(.+?)(?=Q:|$)` — the free-text answer, stripped. -/
def saAnswer (part : List Char) : Option (List Char) :=
  (findSub (fun l => matchesCI "ANSWER:".toList l && 7 < l.length) part).bind
    (fun k => (lazyCapture saBoundaryAt (part.drop (k + 7))).map pyStrip)

/-- Parse one short-answer segment. -/
def parseSASegment (include_answers : Bool) (part : List Char) :
    Option (List Char) :=
  match tfStatement part with
  | none => none
  | some question_text =>
    let base := "Question: ".toList ++ question_text
    some (if include_answers then
      match saAnswer part with
      | some a => base ++ "\nAnswer: ".toList ++ a
      | none => base
    else base)

/-- The per-segment loop `for part in parts[1:]`: blank segments are
skipped (`if not part.strip(): continue`), failed segments contribute
nothing, parsed records are collected in order. -/
def parseSegments (segParse : List Char → Option (List Char))
    (parts : List (List Char)) : List (List Char) :=
  parts.filterMap
    (fun part => if pyStrip part = [] then none else segParse part)

/-- C8: a `Q:`-delimited multiple-choice segment with one or more of the
four options `A, B, C, D` absent yields no record at all — it is dropped,
never emitted with fewer than four options — and parsing continues with the
remaining segments. -/
theorem c8_mcq_requires_all_options (include_answers : Bool)
    (part : List Char) (rest : List (List Char))
    (h : findOption 'A' part = none ∨ findOption 'B' part = none ∨
         findOption 'C' part = none ∨ findOption 'D' part = none) :
    parseMCQSegment include_answers part = none ∧
    parseSegments (parseMCQSegment include_answers) (part :: rest) =
      parseSegments (parseMCQSegment include_answers) rest := by
  have hlen : (mcqOptions part).length ≤ 3 := by
    unfold mcqOptions
    rcases h with h | h | h | h
    · cases hB : findOption 'B' part <;> cases hC : findOption 'C' part <;>
        cases hD : findOption 'D' part <;>
        simp [List.filterMap_cons, h, hB, hC, hD]
    · cases hA : findOption 'A' part <;> cases hC : findOption 'C' part <;>
        cases hD : findOption 'D' part <;>
        simp [List.filterMap_cons, h, hA, hC, hD]
    · cases hA : findOption 'A' part <;> cases hB : findOption 'B' part <;>
        cases hD : findOption 'D' part <;>
        simp [List.filterMap_cons, h, hA, hB, hD]
    · cases hA : findOption 'A' part <;> cases hB : findOption 'B' part <;>
        cases hC : findOption 'C' part <;>
        simp [List.filterMap_cons, h, hA, hB, hC]
  have hnone : parseMCQSegment include_answers part = none := by
    unfold parseMCQSegment
    cases hq : mcqQuestion part with
    | none => rfl
    | some q => simp only []; rw [if_neg (by omega)]
  refine ⟨hnone, ?_⟩
  unfold parseSegments
  rw [List.filterMap_cons]
  by_cases hb : pyStrip part = []
  · rw [if_pos hb]
  · rw [if_neg hb, hnone]

/-- Witness for C8: a segment with a question line and options `A`-`C` but
no option `D` is dropped entirely, and the following segments still parse. -/
theorem c8_mcq_requires_all_options_witness :
    (findOption 'A' "What is 2+2?\nA) 3\nB) 4\nC) 5\n".toList = none ∨
     findOption 'B' "What is 2+2?\nA) 3\nB) 4\nC) 5\n".toList = none ∨
     findOption 'C' "What is 2+2?\nA) 3\nB) 4\nC) 5\n".toList = none ∨
     findOption 'D' "What is 2+2?\nA) 3\nB) 4\nC) 5\n".toList = none) ∧
    (parseMCQSegment false "What is 2+2?\nA) 3\nB) 4\nC) 5\n".toList = none ∧
     parseSegments (parseMCQSegment false)
        ["What is 2+2?\nA) 3\nB) 4\nC) 5\n".toList] =
       parseSegments (parseMCQSegment false) []) :=
  ⟨Or.inr (Or.inr (Or.inr (by decide))),
    c8_mcq_requires_all_options false _ []
      (Or.inr (Or.inr (Or.inr (by decide))))⟩

/-! ### Batch generator (`generate_question_batch`, lines 1127-1343)

The two network-facing effects are parameters: what the HTTP POST to the
generation endpoint produced (`HTTPOutcome`), and whether the outer
`asyncio.wait_for` timed out.  Python exceptions travel as
`Except PyExn`. -/

/-- `re.split(r"\n?Q:\s*", ...)`: does the split pattern match here? -/
def qMarkerAt (l : List Char) : Bool :=
  matchesCI "Q:".toList l ||
    (match l with
     | c :: rest => c == '\n' && matchesCI "Q:".toList rest
     | [] => false)

/-- Consume one occurrence of `\n?Q:\s*` standing at the head of `l`. -/
def qConsume (l : List Char) : List Char :=
  match l with
  | '\n' :: rest => (rest.drop 2).dropWhile isWS
  | _ => (l.drop 2).dropWhile isWS

/-- Fuel-metered splitting scan; every match consumes at least two
characters, so `length + 1` fuel always completes the scan. -/
def qSplitAux : Nat → List Char → List (List Char)
  | 0, l => [l]
  | fuel + 1, l =>
    match findSub qMarkerAt l with
    | none => [l]
    | some p => l.take p :: qSplitAux fuel (qConsume (l.drop p))

/-- `re.split(r"\n?Q:\s*", response_text, flags=re.IGNORECASE)`. -/
def qSplit (l : List Char) : List (List Char) :=
  qSplitAux (l.length + 1) l

/-- The parsing section of `_generate`: split on the `Q:` marker, drop the
text before the first marker (`parts[1:]`), and run the per-type segment
parser over the remaining segments. -/
def parseResponse (q_type : String) (include_answers : Bool)
    (response_text : List Char) : List (List Char) :=
  let parts := (qSplit response_text).tail
  if q_type.toLower = "mcq" then
    parseSegments (parseMCQSegment include_answers) parts
  else if q_type.toLower = "truefalse" then
    parseSegments (parseTFSegment include_answers) parts
  else
    parseSegments (parseSASegment include_answers) parts

/-- Python exceptions that can cross the function boundaries involved. -/
inductive PyExn
  | connectError (msg : String)
  | httpTimeout (msg : String)
  | otherExn (msg : String)

/-- What the HTTP POST to the generation endpoint produced: an exception,
or a reply with a status code and (for 200) the parsed `response` field. -/
inductive HTTPOutcome
  | raises (e : PyExn)
  | responds (statusCode : Nat) (response_text : List Char)

/-- The body of the `try` inside `_generate`: 404 → `[]`
("model not installed"), any other non-200 → `[]`, 200 → parse and keep
the first `num_questions` records. -/
def generateTryBody (q_type : String) (include_answers : Bool)
    (num_questions : Nat) (out : HTTPOutcome) :
    Except PyExn (List (List Char)) :=
  match out with
  | .raises e => .error e
  | .responds code body =>
    if code = 404 then .ok []
    else if code ≠ 200 then .ok []
    else .ok ((parseResponse q_type include_answers body).take num_questions)

/-- `_generate`: the inner coroutine catches `httpx.ConnectError`,
`httpx.TimeoutError` and every other `Exception`, returning `[]` in each
case. -/
def _generate (q_type : String) (include_answers : Bool)
    (num_questions : Nat) (out : HTTPOutcome) :
    Except PyExn (List (List Char)) :=
  match generateTryBody q_type include_answers num_questions out with
  | .error (.connectError _) => .ok []
  | .error (.httpTimeout _) => .ok []
  | .error (.otherExn _) => .ok []
  | .ok qs => .ok qs

/-- `generate_question_batch`: wraps `_generate` in
`asyncio.wait_for(..., timeout)`; an outer timeout yields `[]`, a
`httpx.ConnectError` escaping `_generate` would be re-raised to the caller,
and any other exception yields `[]`. -/
def generate_question_batch (q_type : String) (include_answers : Bool)
    (num_questions : Nat) (outerTimedOut : Bool) (out : HTTPOutcome) :
    Except PyExn (List (List Char)) :=
  if outerTimedOut then .ok []
  else match _generate q_type include_answers num_questions out with
    | .error (.connectError m) => .error (.connectError m)
    | .error _ => .ok []
    | .ok qs => .ok qs

/-- C10: `generate_question_batch` is total at its interface: for every
network outcome (connection error, timeout, HTTP 404, any other status, or
a 200 with arbitrary text) and regardless of the outer timeout, it returns
a list of at most `num_questions` records and never propagates an
exception — in particular it never raises `httpx.ConnectError`, so the
caller's connection-error handler branch is unreachable. -/
theorem c10_batch_never_raises (q_type : String) (include_answers : Bool)
    (num_questions : Nat) (outerTimedOut : Bool) (out : HTTPOutcome) :
    (∃ qs, generate_question_batch q_type include_answers num_questions
        outerTimedOut out = .ok qs ∧ qs.length ≤ num_questions) ∧
    (∀ e, generate_question_batch q_type include_answers num_questions
        outerTimedOut out ≠ .error e) := by
  have hok : ∃ qs, generate_question_batch q_type include_answers
      num_questions outerTimedOut out = .ok qs ∧
      qs.length ≤ num_questions := by
    unfold generate_question_batch _generate generateTryBody
    by_cases ht : outerTimedOut
    · exact ⟨[], by rw [if_pos ht], Nat.zero_le _⟩
    · rw [if_neg ht]
      cases out with
      | raises e => cases e <;> exact ⟨[], rfl, Nat.zero_le _⟩
      | responds code body =>
        by_cases h404 : code = 404
        · exact ⟨[], by simp [h404], Nat.zero_le _⟩
        · by_cases h200 : code = 200
          · refine ⟨(parseResponse q_type include_answers body).take
              num_questions, ?_, ?_⟩
            · simp [h404, h200]
            · simp
          · exact ⟨[], by simp [h404, h200], Nat.zero_le _⟩
  obtain ⟨qs, hqs, hlen⟩ := hok
  exact ⟨⟨qs, hqs, hlen⟩, fun e he => by rw [hqs] at he; cases he⟩

/-! ### Orchestrator per-type loop (`generate_questions_from_pdf`,
lines 199-275)

One pipeline invocation iterates the normalized types in order.  The
outcome of each type's `await generate_question_batch(...)` is a parameter:
it raised `httpx.ConnectError`, raised some other exception, or returned a
list of questions. -/

/-- The outcome of one type's batch-generation attempt as seen by the
orchestrator's `try`. -/
inductive BatchOutcome
  | connError (msg : String)
  | otherError (msg : String)
  | ok (questions : List (List Char))

/-- `previous_questions.add(q[:100])` for each accepted question (a Python
set, modelled as an insertion-ordered duplicate-free list). -/
def addFingerprints (s : List (List Char)) (qs : List (List Char)) :
    List (List Char) :=
  qs.foldl (fun acc q => if q.take 100 ∈ acc then acc else acc ++ [q.take 100]) s

/-- The orchestrator state threaded through the per-type loop. -/
structure GenState where
  all_questions : List (List Char)
  previous_questions : List (List Char)
  connection_errors : List String

/-- The body of the per-type loop: a successful batch extends
`all_questions` and the fingerprint set; a connection error appends to
`connection_errors` and skips the type (`continue`); any other exception
just skips the type. -/
def processType (st : GenState) (outcome : BatchOutcome) : GenState :=
  match outcome with
  | .ok qs =>
    { st with
      all_questions := st.all_questions ++ qs,
      previous_questions := addFingerprints st.previous_questions qs }
  | .connError m =>
    { st with
      connection_errors :=
        st.connection_errors ++ ["Cannot connect to Ollama service: " ++ m] }
  | .otherError _ => st

/-- Run the per-type loop over the (type, outcome) pairs in order. -/
def runGeneration (typed : List (String × BatchOutcome)) : GenState :=
  (typed.map Prod.snd).foldl processType ⟨[], [], []⟩

/-- Did this type's iteration land in one of the two `except` branches? -/
def typeErrored : BatchOutcome → Bool
  | .ok _ => false
  | _ => true

/-- The types whose iteration was skipped by an `except` branch — the
`types_with_errors` observable of the pipeline result. -/
def types_with_errors (typed : List (String × BatchOutcome)) : List String :=
  (typed.filter (fun p => typeErrored p.2)).map Prod.fst

/-- The aggregation step after the loop: with zero questions the call fails
(503 when a connection error was recorded, else 500); otherwise it succeeds
with all collected questions and their count. -/
inductive PipelineOutcome
  | success (questions : List (List Char)) (count : Nat)
  | serviceUnavailable
  | generationFailed

/-- `aggregate` decides the overall result from the final loop state. -/
def aggregate (st : GenState) : PipelineOutcome :=
  if st.all_questions = [] then
    if st.connection_errors ≠ [] then .serviceUnavailable
    else .generationFailed
  else .success st.all_questions st.all_questions.length

/-- C2: when one requested type's batch raises a connection error and
another yields 5 valid questions, the pipeline result contains exactly
those 5 questions; the failed type is recorded (its error lands in
`connection_errors` and the type is listed in `types_with_errors`); only
that type is skipped; and the overall call succeeds — it is not a total
generation failure. -/
theorem c2_partial_failure_success (tA tB m : String)
    (q1 q2 q3 q4 q5 : List Char) :
    (runGeneration [(tA, .connError m),
        (tB, .ok [q1, q2, q3, q4, q5])]).all_questions =
      [q1, q2, q3, q4, q5] ∧
    (runGeneration [(tA, .connError m),
        (tB, .ok [q1, q2, q3, q4, q5])]).all_questions.length = 5 ∧
    tA ∈ types_with_errors [(tA, .connError m),
        (tB, .ok [q1, q2, q3, q4, q5])] ∧
    (runGeneration [(tA, .connError m),
        (tB, .ok [q1, q2, q3, q4, q5])]).connection_errors =
      ["Cannot connect to Ollama service: " ++ m] ∧
    aggregate (runGeneration [(tA, .connError m),
        (tB, .ok [q1, q2, q3, q4, q5])]) =
      .success [q1, q2, q3, q4, q5] 5 := by
  refine ⟨rfl, rfl, ?_, rfl, ?_⟩
  · simp [types_with_errors, typeErrored]
  · simp [aggregate, runGeneration, processType]

end CMS
